import Mathlib

/-!
# Verification of `examples/list_environments_demo.py`

A shallow embedding of the Python MCP client `MySQLMCPClient` from
`src/examples/list_environments_demo.py`, together with theorems settling
the frozen claims about its specification.

The client is a synchronous JSON-RPC 2.0 HTTP client.  The external HTTP
layer (`requests.post`) is modelled as an oracle function from the request
the client sends to an abstract outcome (connection error, or a status code
with a parsed JSON body).  Python's dynamic JSON values are modelled by the
inductive type `Json`; Python exceptions become the error type
`ClientError`, with one constructor per distinct exception class raised or
propagated by the source.
-/

namespace MCPDemo

/-- Parsed JSON values, as produced by `response.json()`. -/
inductive Json where
  | null
  | bool (b : Bool)
  | num (n : Int)
  | str (s : String)
  | arr (elems : List Json)
  | obj (fields : List (String × Json))

/-- First-match lookup in an object's field list (Python dict lookup;
the parser keeps keys unique, so first-match is exact). -/
def lookupField : List (String × Json) → String → Option Json
  | [], _ => none
  | (k, v) :: rest, key => if k == key then some v else lookupField rest key

/-- `j.get(key)` on a dict: `some v` when the key is present, `none`
otherwise (also `none` on a non-object, where Python would raise;
no claim exercises that case). -/
def Json.getField (j : Json) (key : String) : Option Json :=
  match j with
  | Json.obj fields => lookupField fields key
  | _ => none

/-- Python equality test `v == s` between a JSON value and a string:
true exactly when `v` is that string. -/
def Json.eqStr (v : Json) (s : String) : Bool :=
  match v with
  | Json.str t => t == s
  | _ => false

/-- The exceptions the client can raise or let propagate, one constructor
per distinct Python exception class:
`requests.exceptions.ConnectionError`, `requests.exceptions.HTTPError`
(from `raise_for_status`), the bare `Exception("MCP Error: ...")` of
`call_tool` (carrying the envelope's `error` payload), the
`ValueError("Environment '...' not found")` of `get_environment_info`
(carrying the requested name), and the dynamic `KeyError`/`TypeError`
raised by indexing an ill-shaped JSON value. -/
inductive ClientError where
  | connectionError
  | httpError (status : Nat)
  | mcpError (payload : Json)
  | notFound (envName : String)
  | keyError (key : String)
  | typeError

/-- Python indexing `j[key]`: the value when `j` is an object containing
`key`; `KeyError` when the key is missing; `TypeError` when `j` is not an
object. -/
def Json.indexKey (j : Json) (key : String) : Except ClientError Json :=
  match j with
  | Json.obj fields =>
      match lookupField fields key with
      | some v => Except.ok v
      | none => Except.error (ClientError.keyError key)
  | _ => Except.error ClientError.typeError

/-- The message of the `ValueError` raised by `get_environment_info`
(source line 74: `f"Environment '{env_name}' not found"`). -/
def notFoundMessage (envName : String) : String :=
  "Environment \x27" ++ envName ++ "\x27 not found"

/-- The HTTP POST issued by `_make_request`: endpoint URL, the
`Content-Type` header, and the JSON body. -/
structure HttpRequest where
  url : String
  contentType : String
  body : Json

/-- Outcome of one `requests.post` exchange: either the connection cannot
be established, or an HTTP response with a status code and a parsed JSON
body arrives. -/
inductive HttpResult where
  | connError
  | response (status : Nat) (body : Json)

/-- The client state: endpoint URL and the request-id counter
(`__init__`, source lines 13-15). -/
structure MySQLMCPClient where
  server_url : String
  request_id : Nat

/-- `MySQLMCPClient(server_url)`: the counter starts at 0; the first call
will carry id 1. -/
def MySQLMCPClient.init (server_url : String) : MySQLMCPClient :=
  { server_url := server_url, request_id := 0 }

/-- One client step: the state after the call, the HTTP request the call
posted (or attempted to post), and the Python return value or exception. -/
structure StepResult (α : Type) where
  client : MySQLMCPClient
  sent : HttpRequest
  outcome : Except ClientError α

/-- `response.raise_for_status()` raises `HTTPError` exactly for status
codes in [400, 600). -/
def raise_for_status_fails (status : Nat) : Bool :=
  decide (400 ≤ status) && decide (status < 600)

/-- `_make_request` (source lines 17-34): increment the id counter, build
the JSON-RPC envelope with the new id, POST it with a JSON content type,
raise for a failed connection or a non-success status, else return the
parsed body. -/
def make_request (c : MySQLMCPClient) (method : String) (params : Option Json)
    (http : HttpRequest → HttpResult) : StepResult Json :=
  let c2 : MySQLMCPClient := { c with request_id := c.request_id + 1 }
  let payload : Json := Json.obj
    [("jsonrpc", Json.str "2.0"),
     ("id", Json.num (c2.request_id : Int)),
     ("method", Json.str method),
     ("params", params.getD (Json.obj []))]
  let req : HttpRequest :=
    { url := c.server_url, contentType := "application/json", body := payload }
  { client := c2, sent := req,
    outcome :=
      match http req with
      | HttpResult.connError => Except.error ClientError.connectionError
      | HttpResult.response status body =>
          if raise_for_status_fails status then
            Except.error (ClientError.httpError status)
          else
            Except.ok body }

/-- The envelope interpretation of `call_tool` (source lines 45-48):
`if "error" in result: raise Exception(...)` else `return
result.get("result")` (Python `None` is modelled as `Json.null`, matching
both a missing and a null `result` field).  A non-object body makes the
Python code raise on its first dict operation. -/
def call_tool_post (body : Json) : Except ClientError Json :=
  match body with
  | Json.obj fields =>
      match lookupField fields "error" with
      | some e => Except.error (ClientError.mcpError e)
      | none => Except.ok ((lookupField fields "result").getD Json.null)
  | _ => Except.error ClientError.typeError

/-- `call_tool` (source lines 36-48): wrap the tool name and arguments
into `tools/call` params, make the request, then interpret the envelope. -/
def call_tool (c : MySQLMCPClient) (tool_name : String) (arguments : Option Json)
    (http : HttpRequest → HttpResult) : StepResult Json :=
  let params := Json.obj
    [("name", Json.str tool_name),
     ("arguments", arguments.getD (Json.obj []))]
  let s := make_request c "tools/call" (some params) http
  { client := s.client, sent := s.sent, outcome := s.outcome.bind call_tool_post }

/-- `list_environments` (source lines 50-54). -/
def list_environments (c : MySQLMCPClient) (include_disabled : Bool)
    (http : HttpRequest → HttpResult) : StepResult Json :=
  call_tool c "list_environments"
    (some (Json.obj [("include_disabled", Json.bool include_disabled)])) http

/-- The list comprehension `[env["name"] for env in ...]` (source line 59):
left-to-right, raising at the first element without a `"name"` key. -/
def namesOf : List Json → Except ClientError (List Json)
  | [] => Except.ok []
  | env :: rest =>
      (Json.indexKey env "name").bind fun v =>
        (namesOf rest).map fun ns => v :: ns

/-- `get_environment_names` (source lines 56-59). -/
def get_environment_names (c : MySQLMCPClient) (include_disabled : Bool)
    (http : HttpRequest → HttpResult) : StepResult (List Json) :=
  let s := list_environments c include_disabled http
  { client := s.client, sent := s.sent,
    outcome := s.outcome.bind fun result =>
      (Json.indexKey result "environments").bind fun envsJ =>
        match envsJ with
        | Json.arr envs => namesOf envs
        | _ => Except.error ClientError.typeError }

/-- `get_default_environment` (source lines 61-64). -/
def get_default_environment (c : MySQLMCPClient)
    (http : HttpRequest → HttpResult) : StepResult Json :=
  let s := list_environments c false http
  { client := s.client, sent := s.sent,
    outcome := s.outcome.bind fun result =>
      Json.indexKey result "default_environment" }

/-- The scan of `get_environment_info` (source lines 70-74): first
descriptor whose `"name"` equals the argument, else the `ValueError`. -/
def findEnv (env_name : String) : List Json → Except ClientError Json
  | [] => Except.error (ClientError.notFound env_name)
  | env :: rest =>
      (Json.indexKey env "name").bind fun v =>
        if Json.eqStr v env_name then Except.ok env else findEnv env_name rest

/-- `get_environment_info` (source lines 66-74): a full listing with
`include_disabled=True`, then the linear scan. -/
def get_environment_info (c : MySQLMCPClient) (env_name : String)
    (http : HttpRequest → HttpResult) : StepResult Json :=
  let s := list_environments c true http
  { client := s.client, sent := s.sent,
    outcome := s.outcome.bind fun result =>
      (Json.indexKey result "environments").bind fun envsJ =>
        match envsJ with
        | Json.arr envs => findEnv env_name envs
        | _ => Except.error ClientError.typeError }

/-- A sequence of transport calls on one client instance: each entry is a
method and params; returns the HTTP requests posted, in order
(responses never influence the next request except through the counter,
which `_make_request` updates unconditionally). -/
def run_requests (c : MySQLMCPClient) (http : HttpRequest → HttpResult) :
    List (String × Option Json) → List HttpRequest
  | [] => []
  | (m, p) :: rest =>
      let s := make_request c m p http
      s.sent :: run_requests s.client http rest

/-- The `"id"` field of a posted request's body. -/
def requestIdOf (r : HttpRequest) : Option Json :=
  Json.getField r.body "id"

/-- The predicate of the linear scan: descriptor `e` has a `"name"` field
equal to `env_name`. -/
def matchesName (env_name : String) (e : Json) : Bool :=
  match Json.indexKey e "name" with
  | Except.ok v => Json.eqStr v env_name
  | Except.error _ => false

/-- `main`'s error handling (source lines 139-143): only
`requests.exceptions.ConnectionError` gets the actionable
"server not running" hint; every other exception is reported generically. -/
def connection_hint (e : ClientError) : Bool :=
  match e with
  | ClientError.connectionError => true
  | _ => false

/-- A stub server (as in the spec's test scenarios): every exchange
succeeds with status 200 and the envelope `{"result": listing}`. -/
def goodServer (listing : Json) : HttpRequest → HttpResult :=
  fun _ => HttpResult.response 200 (Json.obj [("result", listing)])

/-- Sample enabled environment descriptor (spec Scenario 1/4). -/
def prodEnv : Json :=
  Json.obj [("name", Json.str "prod"), ("status", Json.str "enabled")]

/-- Sample disabled environment descriptor (spec Scenario 4). -/
def uatEnv : Json :=
  Json.obj [("name", Json.str "uat"), ("status", Json.str "disabled")]

/-- A sample full listing: one enabled and one disabled environment. -/
def demoListing : Json :=
  Json.obj
    [("environments", Json.arr [prodEnv, uatEnv]),
     ("total_count", Json.num 2),
     ("default_environment", Json.str "prod")]

/-! ## Theorems -/

/-- Helper: the requests posted by a run of transport calls carry the ids
`c.request_id + 1, c.request_id + 2, ...`, one per call. -/
theorem run_requests_ids (http : HttpRequest → HttpResult)
    (calls : List (String × Option Json)) : ∀ c : MySQLMCPClient,
    (run_requests c http calls).map requestIdOf
      = (List.range' (c.request_id + 1) calls.length).map
          (fun k : Nat => some (Json.num (k : Int))) := by
  induction calls with
  | nil => intro c; rfl
  | cons call rest ih =>
      intro c
      obtain ⟨m, p⟩ := call
      simp only [run_requests, List.map_cons, List.length_cons, List.range'_succ,
        ih]
      rfl

/-- C1: starting from a fresh client, the k-th transport call (1-based)
posts a request whose body's `"id"` field is exactly `k`: the ids over any
run of `N` calls are `[1, 2, ..., N]`, each call's id is one more than the
previous, and no id ever repeats. -/
theorem request_ids_are_one_to_N (url : String) (http : HttpRequest → HttpResult)
    (calls : List (String × Option Json)) :
    (run_requests (MySQLMCPClient.init url) http calls).map requestIdOf
      = (List.range' 1 calls.length).map (fun k : Nat => some (Json.num (k : Int)))
    ∧ (∀ i, i < calls.length →
        ((run_requests (MySQLMCPClient.init url) http calls).map requestIdOf).getD i none
          = some (Json.num ((i : Int) + 1)))
    ∧ ((run_requests (MySQLMCPClient.init url) http calls).map requestIdOf).Nodup := by
  have h := run_requests_ids http calls (MySQLMCPClient.init url)
  have hinit : (MySQLMCPClient.init url).request_id = 0 := rfl
  rw [hinit] at h
  refine ⟨h, ?_, ?_⟩
  · intro i hi
    rw [h, List.getD_eq_getElem?_getD, List.getElem?_map,
      List.getElem?_range' 1 1 hi]
    simp only [Option.map_some', Option.getD_some, Option.some.injEq,
      Json.num.injEq]
    push_cast
    ring
  · rw [h]
    refine List.Nodup.map ?_ (List.nodup_range' 1 calls.length)
    intro a b hab
    simpa using hab

/-- C10: every transport invocation increments the request-id counter by
exactly one, unconditionally (the new counter value is already the one
carried in the posted body, so the counter advances even when the exchange
then fails), and no operation changes any client field other than the
counter. -/
theorem request_id_frame (c : MySQLMCPClient) (method tool env_name : String)
    (params arguments : Option Json) (b : Bool)
    (http : HttpRequest → HttpResult) :
    (make_request c method params http).client
      = { server_url := c.server_url, request_id := c.request_id + 1 }
    ∧ requestIdOf (make_request c method params http).sent
      = some (Json.num ((c.request_id : Int) + 1))
    ∧ (call_tool c tool arguments http).client
      = { server_url := c.server_url, request_id := c.request_id + 1 }
    ∧ (list_environments c b http).client
      = { server_url := c.server_url, request_id := c.request_id + 1 }
    ∧ (get_environment_names c b http).client
      = { server_url := c.server_url, request_id := c.request_id + 1 }
    ∧ (get_default_environment c http).client
      = { server_url := c.server_url, request_id := c.request_id + 1 }
    ∧ (get_environment_info c env_name http).client
      = { server_url := c.server_url, request_id := c.request_id + 1 } :=
  ⟨rfl, by simp [requestIdOf, make_request, Json.getField, lookupField], rfl, rfl,
    rfl, rfl, rfl⟩

/-- C5: `list_environments(b)` posts to the client's endpoint with header
`Content-Type: application/json` and body exactly
`{"jsonrpc":"2.0","id":n,"method":"tools/call","params":{"name":"list_environments","arguments":{"include_disabled":b}}}`
where `n` is the client's next request id. -/
theorem list_environments_request_exact (c : MySQLMCPClient) (b : Bool)
    (http : HttpRequest → HttpResult) :
    (list_environments c b http).sent
      = { url := c.server_url, contentType := "application/json",
          body := Json.obj
            [("jsonrpc", Json.str "2.0"),
             ("id", Json.num ((c.request_id : Int) + 1)),
             ("method", Json.str "tools/call"),
             ("params", Json.obj
               [("name", Json.str "list_environments"),
                ("arguments", Json.obj [("include_disabled", Json.bool b)])])] } := by
  show HttpRequest.mk _ _ _ = _
  norm_num [list_environments, call_tool, make_request]

/-- Helper: a successful HTTP exchange hands the parsed body to
`call_tool`'s envelope interpretation. -/
theorem call_tool_outcome_response (c : MySQLMCPClient) (tool : String)
    (arguments : Option Json) (status : Nat) (body : Json)
    (hs : raise_for_status_fails status = false) :
    (call_tool c tool arguments (fun _ => HttpResult.response status body)).outcome
      = call_tool_post body := by
  simp [call_tool, make_request, hs, Except.bind]

/-- C2: after a successful HTTP exchange, `call_tool` fails with the
Protocol Error carrying the server's `error` payload verbatim if and only
if the envelope has an `error` field; otherwise the `result` field is
returned as-is.  In particular the envelope
`obj [("error", obj [("message", str "boom")])]` yields the Protocol Error
carrying that payload, whose `"message"` is `"boom"`. -/
theorem call_tool_envelope (c : MySQLMCPClient) (tool : String)
    (arguments : Option Json) (status : Nat) (fields : List (String × Json))
    (hs : raise_for_status_fails status = false) :
    (∀ e, lookupField fields "error" = some e →
      (call_tool c tool arguments
          (fun _ => HttpResult.response status (Json.obj fields))).outcome
        = Except.error (ClientError.mcpError e))
    ∧ (lookupField fields "error" = none →
      (call_tool c tool arguments
          (fun _ => HttpResult.response status (Json.obj fields))).outcome
        = Except.ok ((lookupField fields "result").getD Json.null))
    ∧ (lookupField fields "error" = none → ∀ r,
        lookupField fields "result" = some r →
      (call_tool c tool arguments
          (fun _ => HttpResult.response status (Json.obj fields))).outcome
        = Except.ok r)
    ∧ ((∃ e, (call_tool c tool arguments
          (fun _ => HttpResult.response status (Json.obj fields))).outcome
            = Except.error (ClientError.mcpError e))
        ↔ (lookupField fields "error").isSome)
    ∧ Json.getField (Json.obj [("message", Json.str "boom")]) "message"
        = some (Json.str "boom") := by
  have key := call_tool_outcome_response c tool arguments status
    (Json.obj fields) hs
  refine ⟨?_, ?_, ?_, ?_, rfl⟩
  · intro e he
    rw [key]
    simp [call_tool_post, he]
  · intro he
    rw [key]
    simp [call_tool_post, he]
  · intro he r hr
    rw [key]
    simp [call_tool_post, he, hr]
  · rw [key]
    cases h : lookupField fields "error" with
    | none => simp [call_tool_post, h]
    | some e => simp [call_tool_post, h]

/-- Witness for C2 at the spec's Scenario 2 envelope. -/
theorem call_tool_envelope_witness :
    (call_tool (MySQLMCPClient.init "http://localhost:8080/mcp")
        "list_environments" none
        (fun _ => HttpResult.response 200
          (Json.obj [("error", Json.obj [("message", Json.str "boom")])]))).outcome
      = Except.error (ClientError.mcpError
          (Json.obj [("message", Json.str "boom")])) :=
  (call_tool_envelope (MySQLMCPClient.init "http://localhost:8080/mcp")
      "list_environments" none 200
      [("error", Json.obj [("message", Json.str "boom")])] rfl).1
    (Json.obj [("message", Json.str "boom")]) rfl

/-- C9: when a successful exchange's envelope has neither an `error` nor a
`result` field, `call_tool` returns Python `None` (modelled `Json.null`)
and raises nothing: the missing `result` is not detected. -/
theorem call_tool_missing_result_is_silent (c : MySQLMCPClient) (tool : String)
    (arguments : Option Json) (status : Nat) (fields : List (String × Json))
    (hs : raise_for_status_fails status = false)
    (he : lookupField fields "error" = none)
    (hr : lookupField fields "result" = none) :
    (call_tool c tool arguments
        (fun _ => HttpResult.response status (Json.obj fields))).outcome
      = Except.ok Json.null := by
  rw [call_tool_outcome_response c tool arguments status (Json.obj fields) hs]
  simp [call_tool_post, he, hr]

/-- Witness for C9: the empty envelope. -/
theorem call_tool_missing_result_is_silent_witness :
    (call_tool (MySQLMCPClient.init "http://localhost:8080/mcp")
        "list_environments" none
        (fun _ => HttpResult.response 200 (Json.obj []))).outcome
      = Except.ok Json.null :=
  call_tool_missing_result_is_silent (MySQLMCPClient.init "http://localhost:8080/mcp")
    "list_environments" none 200 [] rfl rfl rfl

/-- Helper: the Python comparison `env["name"] == env_name` succeeds
exactly on the string value `env_name`. -/
theorem eqStr_iff_eq (v : Json) (s : String) :
    Json.eqStr v s = true ↔ v = Json.str s := by
  cases v <;> simp [Json.eqStr]

/-- Helper: against the stub server, `get_environment_info` reduces to the
linear scan of the listing's `environments`. -/
theorem get_environment_info_outcome (c : MySQLMCPClient) (env_name : String)
    (listing : Json) :
    (get_environment_info c env_name (goodServer listing)).outcome
      = (Json.indexKey listing "environments").bind fun envsJ =>
          match envsJ with
          | Json.arr envs => findEnv env_name envs
          | _ => Except.error ClientError.typeError := by
  simp [get_environment_info, list_environments, goodServer, call_tool,
    make_request, call_tool_post, lookupField, raise_for_status_fails,
    Except.bind]

/-- Helper: against the stub server, `get_environment_names` reduces to the
name projection of the listing's `environments`. -/
theorem get_environment_names_outcome (c : MySQLMCPClient) (b : Bool)
    (listing : Json) :
    (get_environment_names c b (goodServer listing)).outcome
      = (Json.indexKey listing "environments").bind fun envsJ =>
          match envsJ with
          | Json.arr envs => namesOf envs
          | _ => Except.error ClientError.typeError := by
  simp [get_environment_names, list_environments, goodServer, call_tool,
    make_request, call_tool_post, lookupField, raise_for_status_fails,
    Except.bind]

/-- Helper: when every scanned descriptor has a `"name"` field, the scan
returns exactly the listing's first match, and the `ValueError` exactly
when there is none. -/
theorem findEnv_spec (env_name : String) (envs : List Json) :
    (∀ e ∈ envs, ∃ v, Json.indexKey e "name" = Except.ok v) →
    ((∃ env, envs.find? (matchesName env_name) = some env
        ∧ findEnv env_name envs = Except.ok env)
      ∨ (envs.find? (matchesName env_name) = none
        ∧ findEnv env_name envs = Except.error (ClientError.notFound env_name))) := by
  induction envs with
  | nil => exact fun _ => Or.inr ⟨rfl, rfl⟩
  | cons env rest ih =>
      intro hall
      obtain ⟨v, hv⟩ := hall env (List.mem_cons_self env rest)
      have hmn : matchesName env_name env = Json.eqStr v env_name := by
        simp [matchesName, hv]
      by_cases hm : Json.eqStr v env_name = true
      · refine Or.inl ⟨env, ?_, ?_⟩
        · simp [List.find?_cons, hmn, hm]
        · simp [findEnv, hv, hm, Except.bind]
      · have hm2 : Json.eqStr v env_name = false := by simpa using hm
        have hfind : (env :: rest).find? (matchesName env_name)
            = rest.find? (matchesName env_name) := by
          simp [List.find?_cons, hmn, hm2]
        have hfe : findEnv env_name (env :: rest) = findEnv env_name rest := by
          simp [findEnv, hv, hm2, Except.bind]
        rcases ih (fun e he => hall e (List.mem_cons_of_mem env he)) with
          ⟨e0, h1, h2⟩ | ⟨h1, h2⟩
        · exact Or.inl ⟨e0, by rw [hfind, h1], by rw [hfe, h2]⟩
        · exact Or.inr ⟨by rw [hfind, h1], by rw [hfe, h2]⟩

/-- Helper: when every descriptor has a `"name"` field, the comprehension
`[env["name"] for env in envs]` succeeds and pairs each descriptor with its
name field, in order. -/
theorem namesOf_spec (envs : List Json) :
    (∀ e ∈ envs, ∃ v, Json.indexKey e "name" = Except.ok v) →
    ∃ ns, namesOf envs = Except.ok ns
      ∧ List.Forall₂ (fun e v => Json.indexKey e "name" = Except.ok v) envs ns := by
  induction envs with
  | nil => exact fun _ => ⟨[], rfl, List.Forall₂.nil⟩
  | cons env rest ih =>
      intro hall
      obtain ⟨v, hv⟩ := hall env (List.mem_cons_self env rest)
      obtain ⟨ns, hns, hf⟩ := ih (fun e he => hall e (List.mem_cons_of_mem env he))
      exact ⟨v :: ns, by simp [namesOf, hv, hns, Except.bind, Except.map],
        List.Forall₂.cons hv hf⟩

/-- C3: `environment_info` queries with `include_disabled = true`, and for
a name occurring among the listing's descriptors it returns the first
descriptor (in the listing's order) whose `"name"` equals the argument;
the returned descriptor's `"name"` field equals the argument, so a
disabled environment is found by explicit name. -/
theorem environment_info_found (c : MySQLMCPClient) (env_name : String)
    (listing : Json) (envs : List Json)
    (henvs : Json.indexKey listing "environments" = Except.ok (Json.arr envs))
    (hall : ∀ e ∈ envs, ∃ v, Json.indexKey e "name" = Except.ok v)
    (hmem : ∃ e ∈ envs, Json.indexKey e "name" = Except.ok (Json.str env_name)) :
    (∃ env, envs.find? (matchesName env_name) = some env
      ∧ (get_environment_info c env_name (goodServer listing)).outcome
          = Except.ok env
      ∧ Json.indexKey env "name" = Except.ok (Json.str env_name))
    ∧ Json.getField
        (get_environment_info c env_name (goodServer listing)).sent.body "params"
      = some (Json.obj
          [("name", Json.str "list_environments"),
           ("arguments", Json.obj [("include_disabled", Json.bool true)])]) := by
  have hout := get_environment_info_outcome c env_name listing
  rw [henvs] at hout
  simp only [Except.bind] at hout
  refine ⟨?_, by simp [get_environment_info, list_environments, goodServer,
    call_tool, make_request, Json.getField, lookupField]⟩
  rcases findEnv_spec env_name envs hall with ⟨env, h1, h2⟩ | ⟨h1, h2⟩
  · refine ⟨env, h1, by rw [hout]; exact h2, ?_⟩
    have hp := List.find?_some h1
    rw [matchesName] at hp
    cases hidx : Json.indexKey env "name" with
    | ok v =>
        rw [hidx] at hp
        have hv2 : Json.eqStr v env_name = true := hp
        rw [(eqStr_iff_eq v env_name).mp hv2]
    | error err =>
        rw [hidx] at hp
        exact Bool.noConfusion (show false = true from hp)
  · exfalso
    obtain ⟨e, he, hename⟩ := hmem
    have : matchesName env_name e = true := by
      simp [matchesName, hename, eqStr_iff_eq]
    have := List.find?_eq_none.mp h1 e he
    simp_all

/-- Witness for C3 at the spec's Scenario 4: `"uat"` is only present among
the disabled entries of the full listing. -/
theorem environment_info_found_witness :
    (∃ env, [prodEnv, uatEnv].find? (matchesName "uat") = some env
      ∧ (get_environment_info (MySQLMCPClient.init "http://localhost:8080/mcp")
            "uat" (goodServer demoListing)).outcome = Except.ok env
      ∧ Json.indexKey env "name" = Except.ok (Json.str "uat"))
    ∧ Json.getField
        (get_environment_info (MySQLMCPClient.init "http://localhost:8080/mcp")
          "uat" (goodServer demoListing)).sent.body "params"
      = some (Json.obj
          [("name", Json.str "list_environments"),
           ("arguments", Json.obj [("include_disabled", Json.bool true)])]) :=
  environment_info_found (MySQLMCPClient.init "http://localhost:8080/mcp")
    "uat" demoListing [prodEnv, uatEnv] rfl
    (by
      intro e he
      rcases List.mem_cons.mp he with h | h
      · exact ⟨Json.str "prod", by rw [h]; rfl⟩
      · rw [List.mem_singleton.mp h]
        exact ⟨Json.str "uat", rfl⟩)
    ⟨uatEnv, List.mem_cons_of_mem prodEnv (List.mem_singleton_self uatEnv), rfl⟩

/-- C4: `environment_info` fails with the Not Found Error if and only if
no descriptor in the full listing has a matching `"name"`, and the error's
message names the requested environment. -/
theorem environment_info_not_found (c : MySQLMCPClient) (env_name : String)
    (listing : Json) (envs : List Json)
    (henvs : Json.indexKey listing "environments" = Except.ok (Json.arr envs))
    (hall : ∀ e ∈ envs, ∃ v, Json.indexKey e "name" = Except.ok v) :
    ((get_environment_info c env_name (goodServer listing)).outcome
        = Except.error (ClientError.notFound env_name)
      ↔ ∀ e ∈ envs, matchesName env_name e = false)
    ∧ (∃ pre suf, notFoundMessage env_name = pre ++ env_name ++ suf) := by
  have hout := get_environment_info_outcome c env_name listing
  rw [henvs] at hout
  simp only [Except.bind] at hout
  refine ⟨?_, ⟨"Environment \x27", "\x27 not found", rfl⟩⟩
  rw [hout]
  rcases findEnv_spec env_name envs hall with ⟨env, h1, h2⟩ | ⟨h1, h2⟩
  · rw [h2]
    constructor
    · intro hcontra
      exact absurd hcontra (by simp)
    · intro hnone
      have hp := List.find?_some h1
      have hm := hnone env (List.mem_of_find?_eq_some h1)
      rw [hm] at hp
      exact Bool.noConfusion hp
  · rw [h2]
    constructor
    · intro _ e he
      have := List.find?_eq_none.mp h1 e he
      simpa using this
    · intro _
      rfl

/-- Witness for C4 at the spec's Scenario 5: `"missing"` is absent. -/
theorem environment_info_not_found_witness :
    (((get_environment_info (MySQLMCPClient.init "http://localhost:8080/mcp")
          "missing" (goodServer demoListing)).outcome
        = Except.error (ClientError.notFound "missing")
      ↔ ∀ e ∈ [prodEnv, uatEnv], matchesName "missing" e = false)
    ∧ (∃ pre suf, notFoundMessage "missing" = pre ++ "missing" ++ suf)) :=
  environment_info_not_found (MySQLMCPClient.init "http://localhost:8080/mcp")
    "missing" demoListing [prodEnv, uatEnv] rfl
    (by
      intro e he
      rcases List.mem_cons.mp he with h | h
      · exact ⟨Json.str "prod", by rw [h]; rfl⟩
      · rw [List.mem_singleton.mp h]
        exact ⟨Json.str "uat", rfl⟩)

/-- C6: `environment_names` returns exactly the listing's descriptors
mapped to their `"name"` fields, in the server-determined order, with no
reordering, filtering, or deduplication. -/
theorem environment_names_projection (c : MySQLMCPClient) (b : Bool)
    (listing : Json) (envs : List Json)
    (henvs : Json.indexKey listing "environments" = Except.ok (Json.arr envs))
    (hall : ∀ e ∈ envs, ∃ v, Json.indexKey e "name" = Except.ok v) :
    ∃ ns, (get_environment_names c b (goodServer listing)).outcome = Except.ok ns
      ∧ List.Forall₂ (fun e v => Json.indexKey e "name" = Except.ok v) envs ns
      ∧ ns.length = envs.length := by
  have hout := get_environment_names_outcome c b listing
  rw [henvs] at hout
  simp only [Except.bind] at hout
  obtain ⟨ns, hns, hf⟩ := namesOf_spec envs hall
  exact ⟨ns, by rw [hout]; exact hns, hf, (List.Forall₂.length_eq hf).symm⟩

/-- Witness for C6 on the sample listing. -/
theorem environment_names_projection_witness :
    ∃ ns, (get_environment_names (MySQLMCPClient.init "http://localhost:8080/mcp")
        true (goodServer demoListing)).outcome = Except.ok ns
      ∧ List.Forall₂ (fun e v => Json.indexKey e "name" = Except.ok v)
          [prodEnv, uatEnv] ns
      ∧ ns.length = [prodEnv, uatEnv].length :=
  environment_names_projection (MySQLMCPClient.init "http://localhost:8080/mcp")
    true demoListing [prodEnv, uatEnv] rfl
    (by
      intro e he
      rcases List.mem_cons.mp he with h | h
      · exact ⟨Json.str "prod", by rw [h]; rfl⟩
      · rw [List.mem_singleton.mp h]
        exact ⟨Json.str "uat", rfl⟩)

/-- C7: when the listing satisfies the server contract
(`total_count` equals the length of `environments`), the sequence returned
by `environment_names(include_disabled=True)` has exactly `total_count`
elements. -/
theorem names_length_matches_total_count (c : MySQLMCPClient)
    (listing : Json) (envs : List Json) (n : Int)
    (henvs : Json.indexKey listing "environments" = Except.ok (Json.arr envs))
    (hall : ∀ e ∈ envs, ∃ v, Json.indexKey e "name" = Except.ok v)
    (htc : Json.getField listing "total_count" = some (Json.num n))
    (hcount : n = (envs.length : Int)) :
    ∃ ns, (get_environment_names c true (goodServer listing)).outcome = Except.ok ns
      ∧ Json.getField listing "total_count" = some (Json.num (ns.length : Int)) := by
  have hout := get_environment_names_outcome c true listing
  rw [henvs] at hout
  simp only [Except.bind] at hout
  obtain ⟨ns, hns, hf⟩ := namesOf_spec envs hall
  refine ⟨ns, by rw [hout]; exact hns, ?_⟩
  rw [htc, hcount, List.Forall₂.length_eq hf]

/-- Witness for C7 on the sample listing (`total_count = 2`). -/
theorem names_length_matches_total_count_witness :
    ∃ ns, (get_environment_names (MySQLMCPClient.init "http://localhost:8080/mcp")
        true (goodServer demoListing)).outcome = Except.ok ns
      ∧ Json.getField demoListing "total_count"
          = some (Json.num (ns.length : Int)) :=
  names_length_matches_total_count
    (MySQLMCPClient.init "http://localhost:8080/mcp") demoListing
    [prodEnv, uatEnv] 2 rfl
    (by
      intro e he
      rcases List.mem_cons.mp he with h | h
      · exact ⟨Json.str "prod", by rw [h]; rfl⟩
      · rw [List.mem_singleton.mp h]
        exact ⟨Json.str "uat", rfl⟩)
    rfl rfl

/-- C8: each of the four failure kinds reaches the immediate caller as a
distinct error value — connection failure, HTTP-level failure, protocol
error (with the server payload) and not-found — all pairwise
distinguishable, and `main`'s handler emits the actionable hint exactly
for the connection failure. -/
theorem failure_kinds_distinguishable (c : MySQLMCPClient)
    (tool env_name : String) (arguments : Option Json) (payload : Json)
    (status : Nat) :
    (call_tool c tool arguments (fun _ => HttpResult.connError)).outcome
      = Except.error ClientError.connectionError
    ∧ (raise_for_status_fails status = true →
        (call_tool c tool arguments
            (fun _ => HttpResult.response status Json.null)).outcome
          = Except.error (ClientError.httpError status))
    ∧ (call_tool c tool arguments
          (fun _ => HttpResult.response 200 (Json.obj [("error", payload)]))).outcome
        = Except.error (ClientError.mcpError payload)
    ∧ (get_environment_info c env_name
          (goodServer (Json.obj [("environments", Json.arr [])]))).outcome
        = Except.error (ClientError.notFound env_name)
    ∧ ClientError.connectionError ≠ ClientError.httpError status
    ∧ ClientError.connectionError ≠ ClientError.mcpError payload
    ∧ ClientError.connectionError ≠ ClientError.notFound env_name
    ∧ ClientError.httpError status ≠ ClientError.mcpError payload
    ∧ ClientError.httpError status ≠ ClientError.notFound env_name
    ∧ ClientError.mcpError payload ≠ ClientError.notFound env_name
    ∧ (∀ e : ClientError, connection_hint e = true
        ↔ e = ClientError.connectionError) := by
  refine ⟨rfl, ?_, rfl, rfl, by simp, by simp, by simp, by simp, by simp,
    by simp, ?_⟩
  · intro hs
    simp [call_tool, make_request, hs, Except.bind]
  · intro e
    cases e <;> simp [connection_hint]

/-- Witness for C8 at status 500. -/
theorem failure_kinds_distinguishable_witness :
    (call_tool (MySQLMCPClient.init "http://localhost:8080/mcp")
        "list_environments" none
        (fun _ => HttpResult.response 500 Json.null)).outcome
      = Except.error (ClientError.httpError 500) :=
  (failure_kinds_distinguishable (MySQLMCPClient.init "http://localhost:8080/mcp")
      "list_environments" "missing" none Json.null 500).2.1 rfl

end MCPDemo
